import Mathlib

/-!
Shallow embedding of `src/agent/runner.py` (class `AgentRunner`): the
bounded self-reflection loop `_run_agent_with_reflection`, the prompt
builders `_build_prompt` / `_format_history`, and the constructor
validation of `AgentRunner.__init__`.

External collaborators (the generation agent and the `compute_metrics`
evaluator) are modelled as arbitrary functions indexed by the number of
calls already made to them, so every possible sequence of collaborator
behaviours is covered.  Python float scores and thresholds are modelled
as rationals: the loop only ever compares them, never computes with
them, so any linearly ordered type is a faithful model of the
comparisons.  The run functions additionally record a trace (the prompt
of each generation call, the text of each generated answer, the answer
text passed to each evaluator call) so that claims about call counts and
about the exact prompts can be stated.
-/

/-- The `{ llm_judge_score, llm_judge_reason }` record returned by
`compute_metrics` (src/agent/metrics.py, consumed at runner.py line 51). -/
structure Metrics where
  llm_judge_score : ℚ
  llm_judge_reason : String
deriving Repr, DecidableEq

/-- The object returned by `agent.run`: the runner only reads its
`.output` field (runner.py lines 47-48, 73-74). -/
structure AgentResult where
  output : String
deriving Repr, DecidableEq

/-- The result of one run of the reflection loop, together with the trace
of collaborator calls: `final` is the returned answer text, `genPrompts`
lists the prompt of every generation-agent call in order, `answers` the
text of every generated answer in order, `evalInputs` the answer text
passed to every evaluator call in order. -/
structure RunResult where
  final : String
  genPrompts : List String
  answers : List String
  evalInputs : List String
deriving Repr, DecidableEq

/-- Python substring test `pat in s`. -/
def strContains (s pat : String) : Bool :=
  decide (pat.toList <:+: s.toList)

/-- Python `s.lower()` (ASCII case mapping on the character list; every
string the runner compares against the lowered text is ASCII). -/
def lowerStr (s : String) : String :=
  ⟨s.toList.map Char.toLower⟩

/-- Python `answer_text or ""` (runner.py line 51): the empty string is
falsy, any other string is passed through. -/
def orEmpty (s : String) : String :=
  if s.isEmpty then "" else s

/-- Lines 54-57 of runner.py: `low_confidence` is `score < threshold`,
`ambiguous` is the case-insensitive substring test, and the answer is
accepted when neither holds (line 57). -/
def acceptedEval (metrics : Metrics) (reflection_threshold : ℚ) : Bool :=
  let low_confidence := decide (metrics.llm_judge_score < reflection_threshold)
  let ambiguous := strContains (lowerStr metrics.llm_judge_reason) "ambiguous"
  !low_confidence && !ambiguous

/-- The corrective prompt built on a retry (runner.py lines 66-71),
a function of the previous answer text alone. -/
def reflectionPrompt (answer_text : String) : String :=
  "Review the previous answer carefully: " ++ answer_text ++ "\n" ++
  "Check for factual accuracy, completeness, clarity, and consistency using only retrieved context.\n" ++
  "If there are mistakes or missing details, provide a corrected, concise answer.\n" ++
  "If nothing relevant is available, say exactly: 'I do not know based on the provided context.'"

/-- The `while attempt <= max_reflections` loop of runner.py lines 50-77.
`remaining` is `max_reflections - attempt` (so `remaining = 0` exactly
when `attempt == max_reflections`, the test on line 60); `answer_text`
is the current answer; `genPrompts`, `answers`, `evalInputs` are the
trace so far, so `genPrompts.length` is the number of generation calls
already made and `evalInputs.length` the number of evaluator calls
already made (used as the call indices of the collaborator functions). -/
def reflectLoop (agent : Nat → String → AgentResult)
    (compute_metrics : Nat → String → String → Metrics)
    (question : String) (reflection_threshold : ℚ) :
    Nat → String → List String → List String → List String → RunResult
  | remaining, answer_text, genPrompts, answers, evalInputs =>
    let metrics := compute_metrics evalInputs.length question (orEmpty answer_text)
    let evalInputs' := evalInputs ++ [orEmpty answer_text]
    if acceptedEval metrics reflection_threshold then
      ⟨answer_text, genPrompts, answers, evalInputs'⟩
    else
      match remaining with
      | 0 => ⟨answer_text, genPrompts, answers, evalInputs'⟩
      | r + 1 =>
        let rp := reflectionPrompt answer_text
        let next := agent genPrompts.length rp
        reflectLoop agent compute_metrics question reflection_threshold
          r next.output (genPrompts ++ [rp]) (answers ++ [next.output]) evalInputs'

/-- `AgentRunner._run_agent_with_reflection` (runner.py lines 36-77): one
initial generation call (line 47), then the reflection loop.  The model
is a total function returning a `RunResult`: a quality shortfall never
raises, the caller always receives a string. -/
def AgentRunner.runWithReflection (agent : Nat → String → AgentResult)
    (compute_metrics : Nat → String → String → Metrics)
    (prompt question : String) (reflection_threshold : ℚ)
    (max_reflections : Nat) : RunResult :=
  let answer := agent 0 prompt
  reflectLoop agent compute_metrics question reflection_threshold
    max_reflections answer.output [prompt] [answer.output] []

/-- `_format_history` (runner.py lines 97-104): Python `if not history`
is true both for `None` and for an empty sequence. -/
def formatHistory (history : Option (List (String × String))) : String :=
  match history with
  | none => "(no prior turns)"
  | some h =>
    if h.isEmpty then "(no prior turns)"
    else
      let lines := h.foldl
        (fun acc qa => acc ++ ["User: " ++ qa.1, "Assistant: " ++ qa.2]) []
      String.intercalate "\n" lines

/-- `AgentRunner._build_prompt` (runner.py lines 79-94). -/
def buildPrompt (question : String) (history : Option (List (String × String)))
    (limit : Int) : String :=
  let history_text := formatHistory history
  "Conversation so far:\n" ++ history_text ++ "\n\n" ++
  "User question: " ++ question ++ "\n" ++
  "First call `vector_search` with query=the question text and limit=" ++ toString limit ++ " to fetch context. " ++
  "If vector search returns nothing useful, call `web_search` to gather public web snippets. " ++
  "Then answer concisely using only the retrieved context. " ++
  "If nothing relevant is returned, say 'I do not know based on the provided context.'"

/-- The public `AgentRunner.answer` operation (runner.py lines 20-34),
instrumented with the collaborator-call trace. -/
def AgentRunner.answerRun (agent : Nat → String → AgentResult)
    (compute_metrics : Nat → String → String → Metrics)
    (question : String) (limit : Int)
    (conversation_history : Option (List (String × String)))
    (reflection_threshold : ℚ) (max_reflections : Nat) : RunResult :=
  let prompt := buildPrompt question conversation_history limit
  AgentRunner.runWithReflection agent compute_metrics prompt question
    reflection_threshold max_reflections

/-- The string the public `answer` operation returns. -/
def AgentRunner.answer (agent : Nat → String → AgentResult)
    (compute_metrics : Nat → String → String → Metrics)
    (question : String) (limit : Int)
    (conversation_history : Option (List (String × String)))
    (reflection_threshold : ℚ) (max_reflections : Nat) : String :=
  (AgentRunner.answerRun agent compute_metrics question limit
    conversation_history reflection_threshold max_reflections).final

/-- `AgentRunner.__init__` (runner.py lines 12-18): when neither the
agent nor the dependencies are supplied both are taken from the
`build_agent` factory; when exactly one is supplied a `ValueError` is
raised (modelled as `Except.error`) before any generation call is
possible — no generation function is even in scope here. -/
def AgentRunner.init {α δ : Type} (build_agent : Unit → α × δ)
    (agent : Option α) (deps : Option δ) : Except String (α × δ) :=
  let supplied : Option α × Option δ :=
    if agent.isNone && deps.isNone then
      let built := build_agent ()
      (some built.1, some built.2)
    else (agent, deps)
  match supplied with
  | (some a, some d) => Except.ok (a, d)
  | _ => Except.error "Both agent and deps must be provided together."

/-! Step equations of the reflection loop. -/

theorem orEmpty_eq (s : String) : orEmpty s = s := by
  unfold orEmpty
  split
  · rename_i h
    exact ((String.isEmpty_iff s).mp h).symm
  · rfl

theorem reflectLoop_accept (agent : Nat → String → AgentResult)
    (cm : Nat → String → String → Metrics) (q : String) (th : ℚ)
    (remaining : Nat) (a : String) (gp ans ei : List String)
    (h : acceptedEval (cm ei.length q (orEmpty a)) th = true) :
    reflectLoop agent cm q th remaining a gp ans ei = ⟨a, gp, ans, ei ++ [orEmpty a]⟩ := by
  rw [reflectLoop.eq_def]
  simp only [h, if_true]

theorem reflectLoop_stop (agent : Nat → String → AgentResult)
    (cm : Nat → String → String → Metrics) (q : String) (th : ℚ)
    (a : String) (gp ans ei : List String)
    (h : acceptedEval (cm ei.length q (orEmpty a)) th = false) :
    reflectLoop agent cm q th 0 a gp ans ei = ⟨a, gp, ans, ei ++ [orEmpty a]⟩ := by
  rw [reflectLoop.eq_def]
  simp only [h, Bool.false_eq_true, if_false]

theorem reflectLoop_retry (agent : Nat → String → AgentResult)
    (cm : Nat → String → String → Metrics) (q : String) (th : ℚ)
    (r : Nat) (a : String) (gp ans ei : List String)
    (h : acceptedEval (cm ei.length q (orEmpty a)) th = false) :
    reflectLoop agent cm q th (r + 1) a gp ans ei =
      reflectLoop agent cm q th r (agent gp.length (reflectionPrompt a)).output
        (gp ++ [reflectionPrompt a])
        (ans ++ [(agent gp.length (reflectionPrompt a)).output])
        (ei ++ [orEmpty a]) := by
  rw [reflectLoop.eq_def]
  simp only [h, Bool.false_eq_true, if_false]

/-! Loop invariants. -/

/-- Every generation call after the first was made with the corrective
prompt built from the answer generated just before it. -/
def RetryPrompts (gp ans : List String) : Prop :=
  ∀ i p, gp[i + 1]? = some p → ∃ prev, ans[i]? = some prev ∧ p = reflectionPrompt prev

theorem RetryPrompts.step {gp ans : List String} {a next : String}
    (hlen : gp.length = ans.length) (hlast : ans.getLast? = some a)
    (h : RetryPrompts gp ans) :
    RetryPrompts (gp ++ [reflectionPrompt a]) (ans ++ [next]) := by
  intro i p hi
  rcases lt_trichotomy (i + 1) gp.length with hlt | heq | hgt
  · rw [List.getElem?_append_left hlt] at hi
    obtain ⟨prev, hprev, hp⟩ := h i p hi
    have hi' : i < ans.length := by
      by_contra hge
      rw [List.getElem?_eq_none (by omega)] at hprev
      exact Option.noConfusion hprev
    exact ⟨prev, by rw [List.getElem?_append_left hi']; exact hprev, hp⟩
  · have hlen1 : 1 ≤ ans.length := by
      by_contra hz
      have : ans = [] := by
        cases ans with
        | nil => rfl
        | cons x xs => simp at hz
      rw [this] at hlast
      simp at hlast
    have hp : p = reflectionPrompt a := by
      rw [heq, List.getElem?_concat_length] at hi
      exact (Option.some.inj hi).symm
    refine ⟨a, ?_, hp⟩
    have hi' : i < ans.length := by omega
    rw [List.getElem?_append_left hi']
    rw [List.getLast?_eq_getElem?] at hlast
    rw [show i = ans.length - 1 by omega]
    exact hlast
  · rw [List.getElem?_eq_none (by simp; omega)] at hi
    exact Option.noConfusion hi

/-- The facts established about the loop result when it starts from a
consistent trace: every generated answer is passed to the evaluator
exactly once and in order, the number of generation calls equals the
number of generated answers, the returned text is the last generated
answer, and every prompt after the first is the corrective prompt of
the answer before it. -/
structure GoodRun (res : RunResult) : Prop where
  evals_eq : res.evalInputs = res.answers
  gen_len : res.genPrompts.length = res.answers.length
  last : res.answers.getLast? = some res.final
  retry : RetryPrompts res.genPrompts res.answers

theorem reflectLoop_trace (agent : Nat → String → AgentResult)
    (cm : Nat → String → String → Metrics) (q : String) (th : ℚ) :
    ∀ (remaining : Nat) (a : String) (gp ans ei : List String),
      ans = ei ++ [a] → gp.length = ans.length → RetryPrompts gp ans →
      GoodRun (reflectLoop agent cm q th remaining a gp ans ei) := by
  intro remaining
  induction remaining with
  | zero =>
    intro a gp ans ei hans hlen hrp
    by_cases h : acceptedEval (cm ei.length q (orEmpty a)) th = true
    · rw [reflectLoop_accept agent cm q th 0 a gp ans ei h]
      exact ⟨by rw [orEmpty_eq, ← hans], hlen, by rw [hans]; simp, hrp⟩
    · rw [Bool.not_eq_true] at h
      rw [reflectLoop_stop agent cm q th a gp ans ei h]
      exact ⟨by rw [orEmpty_eq, ← hans], hlen, by rw [hans]; simp, hrp⟩
  | succ r ih =>
    intro a gp ans ei hans hlen hrp
    by_cases h : acceptedEval (cm ei.length q (orEmpty a)) th = true
    · rw [reflectLoop_accept agent cm q th (r + 1) a gp ans ei h]
      exact ⟨by rw [orEmpty_eq, ← hans], hlen, by rw [hans]; simp, hrp⟩
    · rw [Bool.not_eq_true] at h
      rw [reflectLoop_retry agent cm q th r a gp ans ei h]
      apply ih
      · rw [orEmpty_eq, ← hans]
      · simp [hlen]
      · exact RetryPrompts.step hlen (by rw [hans]; simp) hrp

theorem reflectLoop_genPrompts_le (agent : Nat → String → AgentResult)
    (cm : Nat → String → String → Metrics) (q : String) (th : ℚ) :
    ∀ (remaining : Nat) (a : String) (gp ans ei : List String),
      (reflectLoop agent cm q th remaining a gp ans ei).genPrompts.length ≤
        gp.length + remaining := by
  intro remaining
  induction remaining with
  | zero =>
    intro a gp ans ei
    by_cases h : acceptedEval (cm ei.length q (orEmpty a)) th = true
    · rw [reflectLoop_accept agent cm q th 0 a gp ans ei h]
      exact Nat.le_add_right _ _
    · rw [Bool.not_eq_true] at h
      rw [reflectLoop_stop agent cm q th a gp ans ei h]
      exact Nat.le_add_right _ _
  | succ r ih =>
    intro a gp ans ei
    by_cases h : acceptedEval (cm ei.length q (orEmpty a)) th = true
    · rw [reflectLoop_accept agent cm q th (r + 1) a gp ans ei h]
      exact Nat.le_add_right _ _
    · rw [Bool.not_eq_true] at h
      rw [reflectLoop_retry agent cm q th r a gp ans ei h]
      have := ih (agent gp.length (reflectionPrompt a)).output
        (gp ++ [reflectionPrompt a])
        (ans ++ [(agent gp.length (reflectionPrompt a)).output])
        (ei ++ [orEmpty a])
      simp at this
      omega

theorem reflectLoop_genPrompts_ge (agent : Nat → String → AgentResult)
    (cm : Nat → String → String → Metrics) (q : String) (th : ℚ) :
    ∀ (remaining : Nat) (a : String) (gp ans ei : List String),
      gp.length ≤ (reflectLoop agent cm q th remaining a gp ans ei).genPrompts.length := by
  intro remaining
  induction remaining with
  | zero =>
    intro a gp ans ei
    by_cases h : acceptedEval (cm ei.length q (orEmpty a)) th = true
    · rw [reflectLoop_accept agent cm q th 0 a gp ans ei h]
    · rw [Bool.not_eq_true] at h
      rw [reflectLoop_stop agent cm q th a gp ans ei h]
  | succ r ih =>
    intro a gp ans ei
    by_cases h : acceptedEval (cm ei.length q (orEmpty a)) th = true
    · rw [reflectLoop_accept agent cm q th (r + 1) a gp ans ei h]
    · rw [Bool.not_eq_true] at h
      rw [reflectLoop_retry agent cm q th r a gp ans ei h]
      have := ih (agent gp.length (reflectionPrompt a)).output
        (gp ++ [reflectionPrompt a])
        (ans ++ [(agent gp.length (reflectionPrompt a)).output])
        (ei ++ [orEmpty a])
      simp at this
      omega

theorem reflectLoop_evalInputs_ge (agent : Nat → String → AgentResult)
    (cm : Nat → String → String → Metrics) (q : String) (th : ℚ) :
    ∀ (remaining : Nat) (a : String) (gp ans ei : List String),
      ei.length + 1 ≤ (reflectLoop agent cm q th remaining a gp ans ei).evalInputs.length := by
  intro remaining
  induction remaining with
  | zero =>
    intro a gp ans ei
    by_cases h : acceptedEval (cm ei.length q (orEmpty a)) th = true
    · rw [reflectLoop_accept agent cm q th 0 a gp ans ei h]
      simp
    · rw [Bool.not_eq_true] at h
      rw [reflectLoop_stop agent cm q th a gp ans ei h]
      simp
  | succ r ih =>
    intro a gp ans ei
    by_cases h : acceptedEval (cm ei.length q (orEmpty a)) th = true
    · rw [reflectLoop_accept agent cm q th (r + 1) a gp ans ei h]
      simp
    · rw [Bool.not_eq_true] at h
      rw [reflectLoop_retry agent cm q th r a gp ans ei h]
      have := ih (agent gp.length (reflectionPrompt a)).output
        (gp ++ [reflectionPrompt a])
        (ans ++ [(agent gp.length (reflectionPrompt a)).output])
        (ei ++ [orEmpty a])
      simp at this
      omega

theorem reflectLoop_allFail (agent : Nat → String → AgentResult)
    (cm : Nat → String → String → Metrics) (q : String) (th : ℚ)
    (H : ∀ k a, acceptedEval (cm k q a) th = false) :
    ∀ (remaining : Nat) (a : String) (gp ans ei : List String),
      (reflectLoop agent cm q th remaining a gp ans ei).genPrompts.length =
        gp.length + remaining ∧
      (reflectLoop agent cm q th remaining a gp ans ei).answers.length =
        ans.length + remaining := by
  intro remaining
  induction remaining with
  | zero =>
    intro a gp ans ei
    rw [reflectLoop_stop agent cm q th a gp ans ei (H ei.length (orEmpty a))]
    exact ⟨rfl, rfl⟩
  | succ r ih =>
    intro a gp ans ei
    rw [reflectLoop_retry agent cm q th r a gp ans ei (H ei.length (orEmpty a))]
    have := ih (agent gp.length (reflectionPrompt a)).output
      (gp ++ [reflectionPrompt a])
      (ans ++ [(agent gp.length (reflectionPrompt a)).output])
      (ei ++ [orEmpty a])
    simp at this
    omega

/-! String-containment helpers. -/

theorem isInfix_prepend {α : Type} (x t : List α) {l : List α} (h : l <:+: t) :
    l <:+: x ++ t :=
  h.trans (List.suffix_append x t).isInfix

theorem strContains_mono {s lit pat : String} (h1 : strContains lit pat = true)
    (h2 : lit.toList <:+: s.toList) : strContains s pat = true := by
  unfold strContains at h1 ⊢
  exact decide_eq_true ((of_decide_eq_true h1).trans h2)

theorem strContains_of_infix {s pat : String} (h : pat.toList <:+: s.toList) :
    strContains s pat = true := by
  unfold strContains
  exact decide_eq_true h

theorem acceptedEval_iff (m : Metrics) (th : ℚ) :
    acceptedEval m th = true ↔
      th ≤ m.llm_judge_score ∧
        strContains (lowerStr m.llm_judge_reason) "ambiguous" = false := by
  unfold acceptedEval
  simp only [Bool.and_eq_true, Bool.not_eq_true', decide_eq_false_iff_not, not_lt]

theorem formatHistory_foldl (h : List (String × String)) :
    ∀ acc : List String,
      h.foldl (fun acc qa => acc ++ ["User: " ++ qa.1, "Assistant: " ++ qa.2]) acc =
        acc ++ h.flatMap (fun qa => ["User: " ++ qa.1, "Assistant: " ++ qa.2]) := by
  induction h with
  | nil => intro acc; simp
  | cons x xs ih =>
    intro acc
    simp only [List.foldl_cons, List.flatMap_cons, ih]
    simp [List.append_assoc]

/-! Unfolded forms of the runner entry points. -/

theorem runWithReflection_eq (agent : Nat → String → AgentResult)
    (cm : Nat → String → String → Metrics) (prompt question : String)
    (th : ℚ) (maxR : Nat) :
    AgentRunner.runWithReflection agent cm prompt question th maxR =
      reflectLoop agent cm question th maxR (agent 0 prompt).output
        [prompt] [(agent 0 prompt).output] [] := rfl

theorem answerRun_eq (agent : Nat → String → AgentResult)
    (cm : Nat → String → String → Metrics) (question : String) (limit : Int)
    (hist : Option (List (String × String))) (th : ℚ) (maxR : Nat) :
    AgentRunner.answerRun agent cm question limit hist th maxR =
      reflectLoop agent cm question th maxR
        (agent 0 (buildPrompt question hist limit)).output
        [buildPrompt question hist limit]
        [(agent 0 (buildPrompt question hist limit)).output] [] := rfl

/-! Prefix preservation of the traces. -/

theorem reflectLoop_genPrompts_prefix (agent : Nat → String → AgentResult)
    (cm : Nat → String → String → Metrics) (q : String) (th : ℚ) :
    ∀ (remaining : Nat) (a : String) (gp ans ei : List String),
      gp <+: (reflectLoop agent cm q th remaining a gp ans ei).genPrompts := by
  intro remaining
  induction remaining with
  | zero =>
    intro a gp ans ei
    by_cases h : acceptedEval (cm ei.length q (orEmpty a)) th = true
    · rw [reflectLoop_accept agent cm q th 0 a gp ans ei h]
    · rw [Bool.not_eq_true] at h
      rw [reflectLoop_stop agent cm q th a gp ans ei h]
  | succ r ih =>
    intro a gp ans ei
    by_cases h : acceptedEval (cm ei.length q (orEmpty a)) th = true
    · rw [reflectLoop_accept agent cm q th (r + 1) a gp ans ei h]
    · rw [Bool.not_eq_true] at h
      rw [reflectLoop_retry agent cm q th r a gp ans ei h]
      exact (List.prefix_append gp [reflectionPrompt a]).trans (ih _ _ _ _)

theorem reflectLoop_evalInputs_prefix (agent : Nat → String → AgentResult)
    (cm : Nat → String → String → Metrics) (q : String) (th : ℚ) :
    ∀ (remaining : Nat) (a : String) (gp ans ei : List String),
      (ei ++ [orEmpty a]) <+: (reflectLoop agent cm q th remaining a gp ans ei).evalInputs := by
  intro remaining
  induction remaining with
  | zero =>
    intro a gp ans ei
    by_cases h : acceptedEval (cm ei.length q (orEmpty a)) th = true
    · rw [reflectLoop_accept agent cm q th 0 a gp ans ei h]
    · rw [Bool.not_eq_true] at h
      rw [reflectLoop_stop agent cm q th a gp ans ei h]
  | succ r ih =>
    intro a gp ans ei
    by_cases h : acceptedEval (cm ei.length q (orEmpty a)) th = true
    · rw [reflectLoop_accept agent cm q th (r + 1) a gp ans ei h]
    · rw [Bool.not_eq_true] at h
      rw [reflectLoop_retry agent cm q th r a gp ans ei h]
      exact (List.prefix_append (ei ++ [orEmpty a])
        [orEmpty (agent gp.length (reflectionPrompt a)).output]).trans (ih _ _ _ _)

/-! Concrete collaborators used to witness the hypothesised theorems. -/

/-- A generation agent whose k-th call returns a fixed text. -/
def demoAgent : Nat → String → AgentResult := fun _ _ => ⟨"demo answer"⟩

/-- A generation agent that returns the empty string. -/
def demoEmptyAgent : Nat → String → AgentResult := fun _ _ => ⟨""⟩

/-- An evaluator that always accepts (score 1, clean reason). -/
def demoAccept : Nat → String → String → Metrics := fun _ _ _ => ⟨1, "good"⟩

/-- An evaluator that always rejects (score 0 and an ambiguous reason). -/
def demoReject : Nat → String → String → Metrics := fun _ _ _ => ⟨0, "Ambiguous context"⟩

/-- C1: for every `max_reflections ≥ 0` (a natural number here) and every
behaviour of the generation agent and the evaluator, one call to the
public answer operation makes between `1` and `max_reflections + 1`
generation-agent calls inclusive: one initial call plus at most
`max_reflections` corrective retries. -/
theorem C1_generation_calls_bounded (agent : Nat → String → AgentResult)
    (cm : Nat → String → String → Metrics) (question : String) (limit : Int)
    (hist : Option (List (String × String))) (th : ℚ) (maxR : Nat) :
    1 ≤ (AgentRunner.answerRun agent cm question limit hist th maxR).genPrompts.length ∧
    (AgentRunner.answerRun agent cm question limit hist th maxR).genPrompts.length ≤
      maxR + 1 := by
  rw [answerRun_eq]
  constructor
  · simpa using reflectLoop_genPrompts_ge agent cm question th maxR
      (agent 0 (buildPrompt question hist limit)).output
      [buildPrompt question hist limit]
      [(agent 0 (buildPrompt question hist limit)).output] []
  · have h := reflectLoop_genPrompts_le agent cm question th maxR
      (agent 0 (buildPrompt question hist limit)).output
      [buildPrompt question hist limit]
      [(agent 0 (buildPrompt question hist limit)).output] []
    simp at h
    omega

/-- C8: for every configuration of the threshold and the reflection
budget, every call to the public answer operation makes at least one
generation call and at least one evaluation call. -/
theorem C8_at_least_one_call (agent : Nat → String → AgentResult)
    (cm : Nat → String → String → Metrics) (question : String) (limit : Int)
    (hist : Option (List (String × String))) (th : ℚ) (maxR : Nat) :
    1 ≤ (AgentRunner.answerRun agent cm question limit hist th maxR).genPrompts.length ∧
    1 ≤ (AgentRunner.answerRun agent cm question limit hist th maxR).evalInputs.length := by
  rw [answerRun_eq]
  constructor
  · simpa using reflectLoop_genPrompts_ge agent cm question th maxR
      (agent 0 (buildPrompt question hist limit)).output
      [buildPrompt question hist limit]
      [(agent 0 (buildPrompt question hist limit)).output] []
  · simpa using reflectLoop_evalInputs_ge agent cm question th maxR
      (agent 0 (buildPrompt question hist limit)).output
      [buildPrompt question hist limit]
      [(agent 0 (buildPrompt question hist limit)).output] []

/-- C10: in every run of the public answer operation the list of texts
passed to the evaluator equals the list of generated answer texts — so
the evaluator is called exactly once per generation call, every
generated answer (initial and each retry) is evaluated exactly once, in
order, and none twice. -/
theorem C10_each_answer_evaluated_once (agent : Nat → String → AgentResult)
    (cm : Nat → String → String → Metrics) (question : String) (limit : Int)
    (hist : Option (List (String × String))) (th : ℚ) (maxR : Nat) :
    (AgentRunner.answerRun agent cm question limit hist th maxR).evalInputs =
      (AgentRunner.answerRun agent cm question limit hist th maxR).answers ∧
    (AgentRunner.answerRun agent cm question limit hist th maxR).evalInputs.length =
      (AgentRunner.answerRun agent cm question limit hist th maxR).genPrompts.length := by
  rw [answerRun_eq]
  obtain ⟨hev, hlen, hlast, hrp⟩ := reflectLoop_trace agent cm question th maxR
    (agent 0 (buildPrompt question hist limit)).output
    [buildPrompt question hist limit]
    [(agent 0 (buildPrompt question hist limit)).output] []
    rfl rfl (by
      intro i p hp
      rw [List.getElem?_eq_none (by simp)] at hp
      exact Option.noConfusion hp)
  exact ⟨hev, by rw [hev, hlen]⟩

/-- C3: if every evaluation fails the acceptance condition, exactly
`max_reflections + 1` generation calls occur (so none after the attempt
counter reaches `max_reflections`), and the public operation returns the
last generated answer text verbatim — the embedding is a total function
into strings, so a quality shortfall never raises. -/
theorem C3_exhaustion_returns_last (agent : Nat → String → AgentResult)
    (cm : Nat → String → String → Metrics) (question : String) (limit : Int)
    (hist : Option (List (String × String))) (th : ℚ) (maxR : Nat)
    (H : ∀ k a, acceptedEval (cm k question a) th = false) :
    (AgentRunner.answerRun agent cm question limit hist th maxR).genPrompts.length =
      maxR + 1 ∧
    (AgentRunner.answerRun agent cm question limit hist th maxR).answers.length =
      maxR + 1 ∧
    (AgentRunner.answerRun agent cm question limit hist th maxR).answers[maxR]? =
      some (AgentRunner.answer agent cm question limit hist th maxR) := by
  have ha : AgentRunner.answer agent cm question limit hist th maxR =
      (AgentRunner.answerRun agent cm question limit hist th maxR).final := rfl
  rw [ha, answerRun_eq]
  obtain ⟨h1, h2⟩ := reflectLoop_allFail agent cm question th H maxR
    (agent 0 (buildPrompt question hist limit)).output
    [buildPrompt question hist limit]
    [(agent 0 (buildPrompt question hist limit)).output] []
  obtain ⟨hev, hlen, hlast, hrp⟩ := reflectLoop_trace agent cm question th maxR
    (agent 0 (buildPrompt question hist limit)).output
    [buildPrompt question hist limit]
    [(agent 0 (buildPrompt question hist limit)).output] []
    rfl rfl (by
      intro i p hp
      rw [List.getElem?_eq_none (by simp)] at hp
      exact Option.noConfusion hp)
  simp only [List.length_singleton] at h1 h2
  refine ⟨by omega, by omega, ?_⟩
  rw [List.getLast?_eq_getElem?] at hlast
  have hidx : (reflectLoop agent cm question th maxR
      (agent 0 (buildPrompt question hist limit)).output
      [buildPrompt question hist limit]
      [(agent 0 (buildPrompt question hist limit)).output] []).answers.length - 1 =
      maxR := by omega
  rw [hidx] at hlast
  exact hlast

/-- C3 witness: an always-rejecting evaluator with `max_reflections = 2`
yields exactly three generation calls, and the returned string is the
third generated answer. -/
theorem C3_exhaustion_returns_last_witness :
    (AgentRunner.answerRun demoAgent demoReject "q" 5 none 1 2).genPrompts.length =
      2 + 1 ∧
    (AgentRunner.answerRun demoAgent demoReject "q" 5 none 1 2).answers.length =
      2 + 1 ∧
    (AgentRunner.answerRun demoAgent demoReject "q" 5 none 1 2).answers[2]? =
      some (AgentRunner.answer demoAgent demoReject "q" 5 none 1 2) :=
  C3_exhaustion_returns_last demoAgent demoReject "q" 5 none 1 2
    (fun _ _ => (by decide : acceptedEval ⟨0, "Ambiguous context"⟩ 1 = false))

/-- C4: if the first generated answer's evaluation has score at or above
the threshold and a reason without the case-insensitive substring
"ambiguous", exactly one generation call and one evaluation call occur
and the returned string is that first answer verbatim. -/
theorem C4_first_answer_accepted (agent : Nat → String → AgentResult)
    (cm : Nat → String → String → Metrics) (question : String) (limit : Int)
    (hist : Option (List (String × String))) (th : ℚ) (maxR : Nat)
    (hscore : th ≤ (cm 0 question
      (agent 0 (buildPrompt question hist limit)).output).llm_judge_score)
    (hreason : strContains (lowerStr (cm 0 question
      (agent 0 (buildPrompt question hist limit)).output).llm_judge_reason)
      "ambiguous" = false) :
    (AgentRunner.answerRun agent cm question limit hist th maxR).genPrompts.length = 1 ∧
    (AgentRunner.answerRun agent cm question limit hist th maxR).evalInputs.length = 1 ∧
    AgentRunner.answer agent cm question limit hist th maxR =
      (agent 0 (buildPrompt question hist limit)).output := by
  have ha : AgentRunner.answer agent cm question limit hist th maxR =
      (AgentRunner.answerRun agent cm question limit hist th maxR).final := rfl
  rw [ha, answerRun_eq]
  have hacc : acceptedEval (cm ([] : List String).length question
      (orEmpty (agent 0 (buildPrompt question hist limit)).output)) th = true := by
    rw [orEmpty_eq]
    exact (acceptedEval_iff _ _).mpr ⟨hscore, hreason⟩
  rw [reflectLoop_accept agent cm question th maxR
    (agent 0 (buildPrompt question hist limit)).output
    [buildPrompt question hist limit]
    [(agent 0 (buildPrompt question hist limit)).output] [] hacc]
  exact ⟨rfl, rfl, rfl⟩

/-- C4 witness: an always-accepting evaluator stops after a single
generation and a single evaluation, returning the first answer. -/
theorem C4_first_answer_accepted_witness :
    (AgentRunner.answerRun demoAgent demoAccept "q" 5 none 0 2).genPrompts.length = 1 ∧
    (AgentRunner.answerRun demoAgent demoAccept "q" 5 none 0 2).evalInputs.length = 1 ∧
    AgentRunner.answer demoAgent demoAccept "q" 5 none 0 2 =
      (demoAgent 0 (buildPrompt "q" none 5)).output :=
  C4_first_answer_accepted demoAgent demoAccept "q" 5 none 0 2
    zero_le_one (by decide)

/-- C2: in a state with retries left, the loop accepts — makes no
further generation call and returns the current answer text unchanged —
exactly when the score is at or above the threshold AND the reason text
does not contain the case-insensitive substring "ambiguous"; a reason of
"Ambiguous context" is rejected exactly as "ambiguous context" is
(whatever the score), and a score exactly equal to the threshold is
accepted when the reason is clean. -/
theorem C2_acceptance_condition :
    (∀ (agent : Nat → String → AgentResult) (cm : Nat → String → String → Metrics)
       (q : String) (th : ℚ) (r : Nat) (a : String) (gp ans ei : List String),
       ((reflectLoop agent cm q th (r + 1) a gp ans ei).genPrompts = gp ∧
        (reflectLoop agent cm q th (r + 1) a gp ans ei).final = a) ↔
       (th ≤ (cm ei.length q (orEmpty a)).llm_judge_score ∧
        strContains (lowerStr (cm ei.length q (orEmpty a)).llm_judge_reason)
          "ambiguous" = false)) ∧
    (∀ s th : ℚ, acceptedEval ⟨s, "Ambiguous context"⟩ th = false ∧
       acceptedEval ⟨s, "ambiguous context"⟩ th = false) ∧
    (∀ (th : ℚ) (reason : String),
       strContains (lowerStr reason) "ambiguous" = false →
       acceptedEval ⟨th, reason⟩ th = true) := by
  refine ⟨?_, ?_, ?_⟩
  · intro agent cm q th r a gp ans ei
    constructor
    · rintro ⟨hgp, _⟩
      by_contra hne
      have hacc : acceptedEval (cm ei.length q (orEmpty a)) th = false := by
        rw [← Bool.not_eq_true]
        intro ht
        exact hne ((acceptedEval_iff _ _).mp ht)
      rw [reflectLoop_retry agent cm q th r a gp ans ei hacc] at hgp
      have h1 := reflectLoop_genPrompts_ge agent cm q th r
        (agent gp.length (reflectionPrompt a)).output
        (gp ++ [reflectionPrompt a])
        (ans ++ [(agent gp.length (reflectionPrompt a)).output])
        (ei ++ [orEmpty a])
      rw [hgp] at h1
      simp at h1
    · intro hrhs
      have hacc := (acceptedEval_iff (cm ei.length q (orEmpty a)) th).mpr hrhs
      rw [reflectLoop_accept agent cm q th (r + 1) a gp ans ei hacc]
      exact ⟨rfl, rfl⟩
  · intro s th
    have hamb : strContains (lowerStr "Ambiguous context") "ambiguous" = true := by decide
    have hamb' : strContains (lowerStr "ambiguous context") "ambiguous" = true := by decide
    constructor
    · simp [acceptedEval, hamb]
    · simp [acceptedEval, hamb']
  · intro th reason h
    exact (acceptedEval_iff ⟨th, reason⟩ th).mpr ⟨le_refl th, h⟩

/-- C2 witness: a score exactly equal to the threshold with a clean
reason is accepted. -/
theorem C2_acceptance_condition_witness :
    acceptedEval ⟨(8 : ℚ) / 10, "score equals threshold"⟩ ((8 : ℚ) / 10) = true :=
  C2_acceptance_condition.2.2 ((8 : ℚ) / 10) "score equals threshold" (by decide)

/-- C5: constructing the runner with exactly one of agent/dependencies
supplied yields the invalid-configuration error immediately — the
construction model never invokes a generation function, none is even in
scope — while supplying both yields that pair and supplying neither
yields the factory-built pair. -/
theorem C5_constructor_validation {α δ : Type} (build_agent : Unit → α × δ)
    (a : α) (d : δ) :
    AgentRunner.init build_agent (some a) none =
      Except.error "Both agent and deps must be provided together." ∧
    AgentRunner.init build_agent none (some d) =
      Except.error "Both agent and deps must be provided together." ∧
    AgentRunner.init build_agent (some a) (some d) = Except.ok (a, d) ∧
    AgentRunner.init build_agent none none = Except.ok (build_agent ()) :=
  ⟨rfl, rfl, rfl, rfl⟩

/-! Containment combinators over appended strings. -/

theorem strContains_append_right {s pat : String} (h : strContains s pat = true)
    (z : String) : strContains (s ++ z) pat = true := by
  unfold strContains at h ⊢
  exact decide_eq_true
    ((of_decide_eq_true h).trans (List.prefix_append s.toList z.toList).isInfix)

theorem strContains_last (x pat : String) : strContains (x ++ pat) pat = true := by
  unfold strContains
  exact decide_eq_true (List.suffix_append x.toList pat.toList).isInfix

theorem strContains_trans {s lit pat : String} (h2 : strContains s lit = true)
    (h1 : strContains lit pat = true) : strContains s pat = true := by
  unfold strContains at h1 h2 ⊢
  exact decide_eq_true ((of_decide_eq_true h1).trans (of_decide_eq_true h2))

theorem buildPrompt_eq (question : String)
    (hist : Option (List (String × String))) (limit : Int) :
    buildPrompt question hist limit =
      "Conversation so far:\n" ++ formatHistory hist ++ "\n\n" ++
      "User question: " ++ question ++ "\n" ++
      "First call `vector_search` with query=the question text and limit=" ++
      toString limit ++ " to fetch context. " ++
      "If vector search returns nothing useful, call `web_search` to gather public web snippets. " ++
      "Then answer concisely using only the retrieved context. " ++
      "If nothing relevant is returned, say 'I do not know based on the provided context.'" := rfl

theorem buildPrompt_contains_history (question : String)
    (hist : Option (List (String × String))) (limit : Int) :
    strContains (buildPrompt question hist limit) (formatHistory hist) = true := by
  rw [buildPrompt_eq]
  apply strContains_append_right
  apply strContains_append_right
  apply strContains_append_right
  apply strContains_append_right
  apply strContains_append_right
  apply strContains_append_right
  apply strContains_append_right
  apply strContains_append_right
  apply strContains_append_right
  apply strContains_append_right
  exact strContains_last _ _

/-- C6: with an empty or absent history the assembled initial prompt
contains the fixed placeholder "(no prior turns)"; with a non-empty
history the rendered history block is exactly the turns as alternating
"User: "/"Assistant: " lines joined by newlines in original order, and
the assembled prompt contains that block. -/
theorem C6_history_rendering :
    (∀ (q : String) (lim : Int),
       strContains (buildPrompt q none lim) "(no prior turns)" = true ∧
       strContains (buildPrompt q (some []) lim) "(no prior turns)" = true) ∧
    (∀ (hs : List (String × String)) (q : String) (lim : Int), hs ≠ [] →
       formatHistory (some hs) = String.intercalate "\n"
         (hs.flatMap fun qa => ["User: " ++ qa.1, "Assistant: " ++ qa.2]) ∧
       strContains (buildPrompt q (some hs) lim) (formatHistory (some hs)) = true) := by
  constructor
  · intro q lim
    constructor
    · exact buildPrompt_contains_history q none lim
    · exact buildPrompt_contains_history q (some []) lim
  · intro hs q lim hne
    refine ⟨?_, buildPrompt_contains_history q (some hs) lim⟩
    have hred : formatHistory (some hs) =
        if hs.isEmpty then "(no prior turns)"
        else String.intercalate "\n"
          (hs.foldl (fun acc qa => acc ++ ["User: " ++ qa.1, "Assistant: " ++ qa.2]) []) :=
      rfl
    rw [hred, if_neg (by simpa using hne)]
    rw [formatHistory_foldl hs []]
    rw [List.nil_append]

/-- C6 witness: a one-turn history renders as its two lines, and the
prompt contains the rendered block. -/
theorem C6_history_rendering_witness :
    formatHistory (some [("a", "b")]) = String.intercalate "\n"
      ([("a", "b")].flatMap fun qa => ["User: " ++ qa.1, "Assistant: " ++ qa.2]) ∧
    strContains (buildPrompt "q" (some [("a", "b")]) 5)
      (formatHistory (some [("a", "b")])) = true :=
  C6_history_rendering.2 [("a", "b")] "q" 5 (by decide)

/-- C9: an empty answer text from the generation agent is treated as a
valid answer, not an error (the embedding is a total function, so no
exception can arise): the evaluator is invoked on it and receives "",
the `or ""` guard passes the empty string through unchanged, and the
verdict drives accept/retry exactly as for any other text — acceptance
returns the empty answer after one generation and one evaluation, and a
rejection with retries left triggers a corrective retry on the empty
answer. -/
theorem C9_empty_answer_is_valid (agent : Nat → String → AgentResult)
    (cm : Nat → String → String → Metrics) (prompt question : String)
    (th : ℚ) (maxR : Nat) (h0 : (agent 0 prompt).output = "") :
    orEmpty "" = "" ∧
    (AgentRunner.runWithReflection agent cm prompt question th maxR).evalInputs[0]? =
      some "" ∧
    (acceptedEval (cm 0 question "") th = true →
      AgentRunner.runWithReflection agent cm prompt question th maxR =
        ⟨"", [prompt], [""], [""]⟩) ∧
    (∀ r, maxR = r + 1 → acceptedEval (cm 0 question "") th = false →
      (AgentRunner.runWithReflection agent cm prompt question th maxR).genPrompts[1]? =
        some (reflectionPrompt "")) := by
  rw [runWithReflection_eq, h0]
  refine ⟨orEmpty_eq "", ?_, ?_, ?_⟩
  · obtain ⟨t, ht⟩ := reflectLoop_evalInputs_prefix agent cm question th maxR
      "" [prompt] [""] []
    rw [← ht, orEmpty_eq]
    simp
  · intro hacc
    have hacc' : acceptedEval (cm ([] : List String).length question (orEmpty "")) th =
        true := by
      rw [orEmpty_eq]
      exact hacc
    rw [reflectLoop_accept agent cm question th maxR "" [prompt] [""] [] hacc']
    rw [orEmpty_eq]
    rfl
  · intro r hr hrej
    subst hr
    have hrej' : acceptedEval (cm ([] : List String).length question (orEmpty "")) th =
        false := by
      rw [orEmpty_eq]
      exact hrej
    rw [reflectLoop_retry agent cm question th r "" [prompt] [""] [] hrej']
    obtain ⟨t, ht⟩ := reflectLoop_genPrompts_prefix agent cm question th r
      (agent [prompt].length (reflectionPrompt "")).output
      ([prompt] ++ [reflectionPrompt ""])
      ([""] ++ [(agent [prompt].length (reflectionPrompt "")).output])
      ([] ++ [orEmpty ""])
    rw [← ht]
    simp

/-- C9 witness: an agent returning the empty string with an
always-rejecting evaluator retries with the corrective prompt built from
the empty answer. -/
theorem C9_empty_answer_is_valid_witness :
    (AgentRunner.runWithReflection demoEmptyAgent demoReject "p" "q" 1 1).genPrompts[1]? =
      some (reflectionPrompt "") :=
  (C9_empty_answer_is_valid demoEmptyAgent demoReject "p" "q" 1 1 rfl).2.2.2 0 rfl
    (by decide)

set_option maxRecDepth 4000 in
/-- C7 counterexample: the claim's blanket non-containment fails — with
question "Review", the corrective prompt of the first retry contains the
question text, because the fixed template itself begins with the word
"Review" (an answer embedding the question text has the same effect). -/
theorem C7_counterexample_question_in_retry_prompt :
    (AgentRunner.answerRun demoAgent demoReject "Review" 5 none 1 1).genPrompts[1]? =
      some (reflectionPrompt "demo answer") ∧
    strContains (reflectionPrompt "demo answer") "Review" = true := by
  constructor
  · decide
  · decide

/-- C7 (amended): every retry's corrective prompt is the fixed template
around the answer generated just before it — it embeds that previous
answer verbatim, contains the instruction to check factual accuracy,
completeness, clarity, and consistency against retrieved context only
and the fixed fallback sentence, is built from the previous answer alone
(the question is never consulted), and contains the initial prompt's
retrieval-tool invocation token `vector_search` only when the previous
answer itself supplies a backtick character. -/
theorem C7_corrective_prompt (agent : Nat → String → AgentResult)
    (cm : Nat → String → String → Metrics) (question : String) (limit : Int)
    (hist : Option (List (String × String))) (th : ℚ) (maxR : Nat)
    (i : Nat) (p : String)
    (hp : (AgentRunner.answerRun agent cm question limit hist th maxR).genPrompts[i + 1]? =
      some p) :
    (∃ prev, (AgentRunner.answerRun agent cm question limit hist th maxR).answers[i]? =
       some prev ∧ p = reflectionPrompt prev) ∧
    (∀ a : String, strContains (reflectionPrompt a) a = true) ∧
    (∀ a : String, strContains (reflectionPrompt a)
       "Check for factual accuracy, completeness, clarity, and consistency using only retrieved context." = true) ∧
    (∀ a : String, strContains (reflectionPrompt a)
       "I do not know based on the provided context." = true) ∧
    (∀ a : String, ('`' : Char) ∉ a.toList →
       strContains (reflectionPrompt a) "`vector_search`" = false) := by
  refine ⟨?_, ?_, ?_, ?_, ?_⟩
  · rw [answerRun_eq] at hp ⊢
    obtain ⟨hev, hlen, hlast, hrp⟩ := reflectLoop_trace agent cm question th maxR
      (agent 0 (buildPrompt question hist limit)).output
      [buildPrompt question hist limit]
      [(agent 0 (buildPrompt question hist limit)).output] []
      rfl rfl (by
        intro j r hj
        rw [List.getElem?_eq_none (by simp)] at hj
        exact Option.noConfusion hj)
    exact hrp i p hp
  · intro a
    apply strContains_append_right
    apply strContains_append_right
    apply strContains_append_right
    apply strContains_append_right
    exact strContains_last _ _
  · intro a
    have h2 : strContains (reflectionPrompt a)
        "Check for factual accuracy, completeness, clarity, and consistency using only retrieved context.\n" =
        true := by
      apply strContains_append_right
      apply strContains_append_right
      exact strContains_last _ _
    exact strContains_trans h2 (by decide)
  · intro a
    have h2 : strContains (reflectionPrompt a)
        "If nothing relevant is available, say exactly: 'I do not know based on the provided context.'" =
        true := strContains_last _ _
    exact strContains_trans h2 (by decide)
  · intro a ha
    by_contra hc
    rw [Bool.not_eq_false] at hc
    unfold strContains at hc
    have hmem : ('`' : Char) ∈ (reflectionPrompt a).toList :=
      (of_decide_eq_true hc).subset (by decide)
    have hsplit : (reflectionPrompt a).toList =
        "Review the previous answer carefully: ".toList ++ a.toList ++
        "\n".toList ++
        "Check for factual accuracy, completeness, clarity, and consistency using only retrieved context.\n".toList ++
        "If there are mistakes or missing details, provide a corrected, concise answer.\n".toList ++
        "If nothing relevant is available, say exactly: 'I do not know based on the provided context.'".toList := rfl
    rw [hsplit] at hmem
    simp only [List.mem_append] at hmem
    rcases hmem with ((((h | h) | h) | h) | h) | h
    · exact absurd h (by decide)
    · exact ha h
    · exact absurd h (by decide)
    · exact absurd h (by decide)
    · exact absurd h (by decide)
    · exact absurd h (by decide)

set_option maxRecDepth 4000 in
/-- C7 witness: in a run with an always-rejecting evaluator, the prompt
of the first retry is the corrective template around the first generated
answer. -/
theorem C7_corrective_prompt_witness :
    ∃ prev, (AgentRunner.answerRun demoAgent demoReject "q" 5 none 1 1).answers[0]? =
      some prev ∧ reflectionPrompt "demo answer" = reflectionPrompt prev :=
  (C7_corrective_prompt demoAgent demoReject "q" 5 none 1 1 0
    (reflectionPrompt "demo answer") (by decide)).1
